import Mathlib

/-!
Verification of the annotation-to-MOT export pipeline
(`exporter/run_export.py`), shallowly embedded in Lean.

Frames are Python ints, embedded as `ℤ` (Python `//` is floor division,
`Int.fdiv`).  Bounding-box percentages and pixel coordinates are Python
floats, embedded as `ℚ` (the code only multiplies and divides by exact
constants, so rational arithmetic matches the intended real-number
semantics; decimal rendering of the output file is not modelled).
-/

/-- Frame-index mapping of `write_mot_sequence` (run_export.py:224-228):
`ls_zero = ls_frame - 1; mot_frame = (ls_zero // FRAME_STRIDE) + 1`. -/
def destinationFrame (lsFrame stride : ℤ) : ℤ :=
  (lsFrame - 1).fdiv stride + 1

/-- Sequence-length computation (run_export.py:199):
`((total_frames - 1) // FRAME_STRIDE) + 1 if total_frames > 0 else 0`. -/
def sequenceLength (totalFrames stride : ℤ) : ℤ :=
  if 0 < totalFrames then (totalFrames - 1).fdiv stride + 1 else 0

/-- Percentage-to-pixel conversion (run_export.py:231-234):
`px = x / 100.0 * width`, and similarly for `py`, `pw`, `ph`. -/
def pixelBox (x y w h width height : ℚ) : ℚ × ℚ × ℚ × ℚ :=
  (x / 100 * width, y / 100 * height, w / 100 * width, h / 100 * height)

/-- One output row of `gt.txt` / `det.txt`: the ten comma-separated columns
`frame,id,px,py,pw,ph,conf,c8,c9,c10` (run_export.py:236-246). -/
structure MOTRow where
  frame : ℤ
  id : ℤ
  px : ℚ
  py : ℚ
  pw : ℚ
  ph : ℚ
  conf : ℚ
  c8 : ℤ
  c9 : ℤ
  c10 : ℤ
deriving DecidableEq

/-- Sort key of `gt_lines.sort` (run_export.py:249): the pair
`(int(fields[0]), int(fields[1]))`, i.e. `(frame, id)` lexicographically. -/
def rowLE (a b : MOTRow) : Prop :=
  a.frame < b.frame ∨ (a.frame = b.frame ∧ a.id ≤ b.id)

instance : DecidableRel rowLE := fun a b => by
  unfold rowLE; infer_instance

instance : IsTotal MOTRow rowLE :=
  ⟨fun a b => by unfold rowLE; omega⟩

instance : IsTrans MOTRow rowLE :=
  ⟨fun a b c => by unfold rowLE; omega⟩

/-- Sort key of `det_lines.sort` (run_export.py:250): `frame` only. -/
def detLE (a b : MOTRow) : Prop :=
  a.frame ≤ b.frame

instance : DecidableRel detLE := fun a b => by
  unfold detLE; infer_instance

instance : IsTotal MOTRow detLE :=
  ⟨fun a b => by unfold detLE; omega⟩

instance : IsTrans MOTRow detLE :=
  ⟨fun a b c => by unfold detLE; omega⟩

/-- One keyframe entry as stored by `parse_ls_tracks`: the tuple
`(ls_frame, x, y, w, h)` (run_export.py:147-149). -/
structure Entry where
  f : ℤ
  x : ℚ
  y : ℚ
  w : ℚ
  h : ℚ
deriving DecidableEq

/-- Per-video track dictionary, key insertion order preserved
(Python dicts iterate in insertion order). -/
abbrev TrackMap := List (String × List Entry)

/-- Executable lexicographic strict comparison of character lists: the
order Python uses on `str` (by code point).  Proved below to agree with
the canonical order on `String`. -/
def charsLT : List Char → List Char → Bool
  | [], [] => false
  | [], _ :: _ => true
  | _ :: _, [] => false
  | a :: as, b :: bs => if a = b then charsLT as bs else decide (a < b)

/-- `a ≤ b` on track keys, as Python `sorted` compares strings. -/
def keyLE (a b : String) : Prop :=
  charsLT b.data a.data = false

instance : DecidableRel keyLE := fun a b => by
  unfold keyLE; infer_instance

/-- Track-id assignment (run_export.py:215):
`{k: i + 1 for i, k in enumerate(sorted(tracks.keys(), key=str))}`. -/
def track_id_map (keys : List String) : List (String × ℕ) :=
  ((List.insertionSort keyLE keys).enum).map
    (fun ik => (ik.2, ik.1 + 1))

/-- The `gt_lines` row built for one keyframe (run_export.py:236-240):
columns `mot_frame, mot_id, px, py, pw, ph, 1, -1, -1, -1`. -/
def gtLine (stride : ℤ) (width height : ℚ) (motId : ℤ) (e : Entry) : MOTRow :=
  let pb := pixelBox e.x e.y e.w e.h width height
  ⟨destinationFrame e.f stride, motId, pb.1, pb.2.1, pb.2.2.1, pb.2.2.2, 1, -1, -1, -1⟩

/-- The `det_lines` row built for the same keyframe (run_export.py:242-246):
columns `mot_frame, -1, px, py, pw, ph, 1.0, -1, -1, -1`. -/
def detLine (stride : ℤ) (width height : ℚ) (e : Entry) : MOTRow :=
  let pb := pixelBox e.x e.y e.w e.h width height
  ⟨destinationFrame e.f stride, -1, pb.1, pb.2.1, pb.2.2.1, pb.2.2.2, 1, -1, -1, -1⟩

/-- A detection row is the ground-truth row with the id column replaced by
the sentinel `-1`. -/
def toDetRow (r : MOTRow) : MOTRow :=
  ⟨r.frame, -1, r.px, r.py, r.pw, r.ph, r.conf, r.c8, r.c9, r.c10⟩

/-- The record-level result of `write_mot_sequence` for one video:
the computed `seqLength` of seqinfo.ini and the sorted `gt.txt` /
`det.txt` rows. -/
structure SeqOutput where
  seqLength : ℤ
  gt : List MOTRow
  det : List MOTRow
deriving DecidableEq

/-- Each track paired with its integer MOT id, in dict insertion order
(run_export.py:220-221: `mot_id = track_id_map[track_key]`). -/
def withTrackIds (tracks : TrackMap) : List (ℤ × List Entry) :=
  let idMap := track_id_map (tracks.map Prod.fst)
  tracks.map (fun kt => ((((idMap.lookup kt.1).getD 0 : ℕ) : ℤ), kt.2))

/-- The `gt_lines` list in generation order (run_export.py:220-240). -/
def gtRawOf (stride : ℤ) (w h : ℚ) (tracks : TrackMap) : List MOTRow :=
  (withTrackIds tracks).flatMap (fun it => it.2.map (gtLine stride w h it.1))

/-- The `det_lines` list in generation order (run_export.py:220-246). -/
def detRawOf (stride : ℤ) (w h : ℚ) (tracks : TrackMap) : List MOTRow :=
  (withTrackIds tracks).flatMap (fun it => it.2.map (detLine stride w h))

/-- Record generation and ordering of `write_mot_sequence`
(run_export.py:199, 215, 220-250): assign integer ids to the track keys,
emit one gt row and one det row per stored keyframe (iterating tracks in
dict insertion order), then sort gt rows by `(frame, id)` and det rows by
`frame` (Python `list.sort` is stable, as is insertion sort). -/
def write_mot_sequence (stride width height totalFrames : ℤ) (tracks : TrackMap) :
    SeqOutput :=
  ⟨sequenceLength totalFrames stride,
   List.insertionSort rowLE (gtRawOf stride (width : ℚ) (height : ℚ) tracks),
   List.insertionSort detLE (detRawOf stride (width : ℚ) (height : ℚ) tracks)⟩

/-- Parse failure for a keyframe missing a required field
(`MalformedAnnotationError` of the design; the code raises on the
missing-key access at run_export.py:141-145). -/
inductive ParseError where
  | malformed
deriving DecidableEq

instance {ε α : Type} [DecidableEq ε] [DecidableEq α] : DecidableEq (Except ε α) := fun a b =>
  match a, b with
  | .error e, .error f =>
    if h : e = f then .isTrue (congrArg Except.error h)
    else .isFalse (fun hh => h (Except.error.inj hh))
  | .error _, .ok _ => .isFalse (fun hh => Except.noConfusion hh)
  | .ok _, .error _ => .isFalse (fun hh => Except.noConfusion hh)
  | .ok x, .ok y =>
    if h : x = y then .isTrue (congrArg Except.ok h)
    else .isFalse (fun hh => h (Except.ok.inj hh))

/-- One keyframe of a `value.sequence` list.  Every field is optional in
the raw JSON; the parser demands `frame`, `x`, `y`, `width`, `height`
and defaults `enabled` to true (run_export.py:136-145). -/
structure Keyframe where
  frame : Option ℤ
  x : Option ℚ
  y : Option ℚ
  width : Option ℚ
  height : Option ℚ
  enabled : Option Bool
deriving DecidableEq

/-- One `result` item of an annotation (run_export.py:124-134). -/
structure LSResult where
  type : String
  id : Option String
  from_name : Option String
  to_name : Option String
  sequence : List Keyframe
deriving DecidableEq

/-- One annotation pass of a task (run_export.py:123). -/
structure LSAnn where
  result : List LSResult
deriving DecidableEq

/-- One task of the Label Studio JSON export (run_export.py:113-123). -/
structure LSTask where
  id : Option ℤ
  video : Option String
  annotations : List LSAnn
deriving DecidableEq

/-- Python `str` of an optional string (`f"...{x}..."` renders `None`). -/
def optStr : Option String → String
  | some s => s
  | none => "None"

/-- Python `str` of an optional integer. -/
def optIntStr : Option ℤ → String
  | some n => toString n
  | none => "None"

/-- Track key of a result (run_export.py:128-131): the result's `id` when
present and truthy (a non-empty string), else the fallback
`f"{task.get('id')}-{result.get('from_name')}-{result.get('to_name')}"`. -/
def trackKeyOf (t : LSTask) (r : LSResult) : String :=
  match r.id with
  | some s => if s = "" then optIntStr t.id ++ "-" ++ optStr r.from_name ++ "-" ++ optStr r.to_name else s
  | none => optIntStr t.id ++ "-" ++ optStr r.from_name ++ "-" ++ optStr r.to_name

/-- Split a character list at every occurrence of a separator character
(Python `str.split(sep)` for a one-character separator; also the behaviour
of `String.splitOn`, re-stated structurally so it evaluates). -/
def splitOnChar (sep : Char) : List Char → List (List Char)
  | [] => [[]]
  | c :: cs =>
    match splitOnChar sep cs with
    | [] => [[]]
    | g :: gs => if c = sep then [] :: g :: gs else (c :: g) :: gs

/-- Last path component of a POSIX-style path (`Path(p).name`). -/
def lastComponent (p : String) : String :=
  String.mk ((splitOnChar '/' p.data).getLastD [])

/-- `Path(p).stem`: the final component without its last suffix; a dot at
position 0 or at the very end does not start a suffix (CPython pathlib). -/
def pathStem (p : String) : String :=
  let name := lastComponent p
  let cs := name.data
  match cs.reverse.findIdx? (fun c => c = '.') with
  | none => name
  | some rj =>
    let i := cs.length - 1 - rj
    if 0 < i ∧ i < cs.length - 1 then String.mk (cs.take i) else name

/-- `raw.split("-", 1)[1] if "-" in raw else raw` (run_export.py:121). -/
def afterFirstDash (raw : String) : String :=
  match splitOnChar '-' raw.data with
  | [] => raw
  | [_] => raw
  | _ :: rest => String.mk (List.intercalate ['-'] rest)

/-- Video name derived from the task's video URL (run_export.py:118-121):
file stem with any upload-generated `<opaque>-` prefix removed. -/
def videoNameOf (url : String) : String :=
  afterFirstDash (pathStem url)

/-- Per-run accumulator `tracks_per_video`: video name to track map,
both levels in insertion order (Python `defaultdict`). -/
abbrev VideoMap := List (String × TrackMap)

/-- Append an entry to the (auto-vivified) list of a track key. -/
def addEntry : TrackMap → String → Entry → TrackMap
  | [], k, e => [(k, [e])]
  | (k', es) :: rest, k, e =>
    if k' = k then (k', es ++ [e]) :: rest else (k', es) :: addEntry rest k e

/-- Append an entry to `tracks_per_video[vname][key]` (run_export.py:147-149). -/
def addVideoEntry : VideoMap → String → String → Entry → VideoMap
  | [], v, k, e => [(v, [(k, [e])])]
  | (v', tm) :: rest, v, k, e =>
    if v' = v then (v', addEntry tm k e) :: rest else (v', tm) :: addVideoEntry rest v k e

/-- Required-field access `kf[...]`: a missing key is the fatal parse
error (Python `KeyError`, run_export.py:141-145). -/
def getField {α : Type} : Option α → Except ParseError α
  | some v => .ok v
  | none => .error .malformed

/-- Handling of one keyframe (run_export.py:136-145): a keyframe with
`enabled == false` is skipped before any field access; otherwise the five
required fields are read in order and yield an entry. -/
def parseKeyframe (kf : Keyframe) : Except ParseError (Option Entry) :=
  if kf.enabled.getD true = false then .ok none
  else do
    let f ← getField kf.frame
    let x ← getField kf.x
    let y ← getField kf.y
    let w ← getField kf.width
    let h ← getField kf.height
    pure (some ⟨f, x, y, w, h⟩)

/-- Accumulator step for one keyframe of one result. -/
def parseSeqStep (vname key : String) (acc : VideoMap) (kf : Keyframe) :
    Except ParseError VideoMap := do
  match ← parseKeyframe kf with
  | none => pure acc
  | some e => pure (addVideoEntry acc vname key e)

/-- Handling of one result (run_export.py:124-149): non-`videorectangle`
results are ignored; otherwise every keyframe of `value.sequence` is
processed under the result's track key. -/
def parseResult (t : LSTask) (vname : String) (acc : VideoMap) (r : LSResult) :
    Except ParseError VideoMap :=
  if r.type = "videorectangle" then
    r.sequence.foldlM (parseSeqStep vname (trackKeyOf t r)) acc
  else pure acc

/-- Handling of one annotation pass (run_export.py:123-124). -/
def parseAnn (t : LSTask) (vname : String) (acc : VideoMap) (a : LSAnn) :
    Except ParseError VideoMap :=
  a.result.foldlM (parseResult t vname) acc

/-- Handling of one task (run_export.py:113-124): tasks with a missing or
empty video reference are skipped entirely. -/
def parseTask (acc : VideoMap) (t : LSTask) : Except ParseError VideoMap :=
  match t.video with
  | none => pure acc
  | some url =>
    if url = "" then pure acc
    else t.annotations.foldlM (parseAnn t (videoNameOf url)) acc

/-- Final per-track sort by Label Studio frame index (run_export.py:152-154),
stable, key `tup[0]`. -/
def sortEntries (es : List Entry) : List Entry :=
  List.insertionSort (fun a b : Entry => a.f ≤ b.f) es

/-- `parse_ls_tracks` (run_export.py:94-156): fold all tasks into the
per-video track map, then sort each track's entries by frame. -/
def parse_ls_tracks (data : List LSTask) : Except ParseError VideoMap := do
  let m ← data.foldlM parseTask []
  pure (m.map (fun vt => (vt.1, vt.2.map (fun kt => (kt.1, sortEntries kt.2)))))

/-- The `__main__` pipeline (run_export.py:281-301): parse the export,
then for each video (name, width, height, totalFrames) with annotations
present produce that video's record set; a parse error aborts the run
before any sequence is written. -/
def runExport (stride : ℤ) (data : List LSTask) (videos : List (String × ℤ × ℤ × ℤ)) :
    Except ParseError (List (String × SeqOutput)) := do
  let tracksByVideo ← parse_ls_tracks data
  pure (videos.filterMap (fun v =>
    match tracksByVideo.lookup v.1 with
    | none => none
    | some tm => some (v.1, write_mot_sequence stride v.2.1 v.2.2.1 v.2.2.2 tm)))

/-- The file-system model for the output-writing step: a map from paths to
file contents.  `Path.write_text` (run_export.py:252-253) opens the final
destination path itself and writes the content into it; there is no
temporary file and no rename in the code. -/
def FS := String → Option String

/-- The empty file system. -/
def fsEmpty : FS := fun _ => none

/-- Store content at a path. -/
def fsSet (fs : FS) (p c : String) : FS :=
  fun q => if q = p then some c else fs q

/-- Final path of the ground-truth file of a sequence (run_export.py:252). -/
def gtPath (seqname : String) : String :=
  seqname ++ "/gt/gt.txt"

/-- Final path of the detection file of a sequence (run_export.py:253). -/
def detPath (seqname : String) : String :=
  seqname ++ "/det/det.txt"

/-- A `write_text` call that is interrupted after `n` characters: the
destination file holds only those first `n` characters (Python `open` in
write mode truncates the file and streams the data, so a mid-write failure
leaves whatever was flushed so far at the final path). -/
def writeTextUpTo (fs : FS) (p c : String) (n : ℕ) : FS :=
  fsSet fs p (String.mk (c.data.take n))

/-- The successful write sequence of run_export.py:252-253: gt.txt then
det.txt, each written directly at its final path. -/
def writeSequenceFiles (fs : FS) (seqname gtContent detContent : String) : FS :=
  fsSet (fsSet fs (gtPath seqname) gtContent) (detPath seqname) detContent

/-- Tracks of the C7 ordering example: track "A" with keyframes at source
frames 1 and 5, track "B" with a keyframe at source frame 3. -/
def c7tracks : TrackMap :=
  [("A", [⟨1, 10, 10, 10, 10⟩, ⟨5, 10, 10, 10, 10⟩]),
   ("B", [⟨3, 10, 10, 10, 10⟩])]

/-- C8 example: three keyframes, the middle one disabled. -/
def c8kfA : Keyframe := ⟨some 1, some 10, some 10, some 10, some 10, none⟩

def c8kfB : Keyframe := ⟨some 2, some 20, some 20, some 20, some 20, some false⟩

def c8kfC : Keyframe := ⟨some 3, some 30, some 30, some 30, some 30, some true⟩

def c8task : LSTask :=
  ⟨some 1, some "video.mp4",
   [⟨[⟨"videorectangle", some "t1", some "box", some "video", [c8kfA, c8kfB, c8kfC]⟩]⟩]⟩

/-- C3 counterexample: two distinct id-less results of the same task that
share `from_name` and `to_name`. -/
def cx3r1 : LSResult :=
  ⟨"videorectangle", none, some "box", some "video", [⟨some 1, some 10, some 10, some 10, some 10, none⟩]⟩

def cx3r2 : LSResult :=
  ⟨"videorectangle", none, some "box", some "video", [⟨some 3, some 30, some 30, some 30, some 30, none⟩]⟩

def cx3task : LSTask := ⟨some 7, some "video.mp4", [⟨[cx3r1, cx3r2]⟩]⟩

/-- C4 counterexample: a keyframe that is missing `width` but is disabled
(`enabled == false`). -/
def cx4kf : Keyframe := ⟨some 2, some 10, some 10, none, some 10, some false⟩

def cx4task : LSTask :=
  ⟨some 1, some "video.mp4", [⟨[⟨"videorectangle", some "t1", some "box", some "video", [cx4kf]⟩]⟩]⟩

/-- C4 witness input: an enabled keyframe missing `width` inside a
tracked-rectangle result of a task with a video reference. -/
def c4kfBad : Keyframe := ⟨some 1, some 10, some 10, none, some 10, none⟩

def c4resBad : LSResult := ⟨"videorectangle", some "t1", some "box", some "video", [c4kfBad]⟩

def c4taskBad : LSTask := ⟨some 1, some "video.mp4", [⟨[c4resBad]⟩]⟩

/-- `destinationFrame` is monotone in the source frame for positive stride. -/
theorem destFrame_mono {s : ℤ} (hs : 1 ≤ s) {f g : ℤ} (h : f ≤ g) :
    destinationFrame f s ≤ destinationFrame g s := by
  unfold destinationFrame
  rw [Int.fdiv_eq_ediv _ (by omega : (0:ℤ) ≤ s), Int.fdiv_eq_ediv _ (by omega : (0:ℤ) ≤ s)]
  have := Int.ediv_le_ediv (show (0:ℤ) < s by omega) (show f - 1 ≤ g - 1 by omega)
  omega

/-- For a positive frame count the sequence length is the destination
frame of the last source frame. -/
theorem seqLen_pos_eq {total s : ℤ} (ht : 0 < total) :
    sequenceLength total s = destinationFrame total s := by
  unfold sequenceLength destinationFrame
  rw [if_pos ht]

/-- C1: the destination frame computed for a keyframe with 1-based source
frame `f` and stride `stride ≥ 1` equals `((f - 1) // stride) + 1`;
consequently source frame 1 maps to destination frame 1, the mapping is
monotone non-decreasing in the source frame, with stride 1 the destination
equals the source, and the writer's ground-truth rows carry exactly this
destination frame. -/
theorem C1_destinationFrame (f stride : ℤ) (_hf : 1 ≤ f) (hs : 1 ≤ stride) :
    destinationFrame f stride = (f - 1).fdiv stride + 1 ∧
    destinationFrame 1 stride = 1 ∧
    (∀ g, f ≤ g → destinationFrame f stride ≤ destinationFrame g stride) ∧
    destinationFrame f 1 = f ∧
    ∀ (w h : ℚ) (i : ℤ) (e : Entry), (gtLine stride w h i e).frame = destinationFrame e.f stride := by
  refine ⟨rfl, ?_, fun g hg => destFrame_mono hs hg, ?_, fun w h i e => rfl⟩
  · simp [destinationFrame, Int.zero_fdiv]
  · unfold destinationFrame
    rw [Int.fdiv_one]
    omega

/-- C1 witness: the theorem applied at f = 5, stride = 3 (and g = 9). -/
theorem C1_destinationFrame_witness :
    destinationFrame 5 3 = (5 - 1 : ℤ).fdiv 3 + 1 ∧
    destinationFrame 1 3 = 1 ∧
    destinationFrame 5 3 ≤ destinationFrame 9 3 ∧
    destinationFrame 5 1 = 5 ∧
    (gtLine 3 100 100 1 ⟨25, 10, 10, 10, 10⟩).frame = destinationFrame 25 3 :=
  ⟨(C1_destinationFrame 5 3 (by decide) (by decide)).1,
   (C1_destinationFrame 5 3 (by decide) (by decide)).2.1,
   (C1_destinationFrame 5 3 (by decide) (by decide)).2.2.1 9 (by decide),
   (C1_destinationFrame 5 3 (by decide) (by decide)).2.2.2.1,
   (C1_destinationFrame 5 3 (by decide) (by decide)).2.2.2.2 100 100 1 ⟨25, 10, 10, 10, 10⟩⟩

/-- C2: for `total ≥ 0` and `stride ≥ 1` the computed sequence length is 0
when `total = 0` and `((total - 1) // stride) + 1` otherwise, and for
`total > 0` it is the greatest value of `destinationFrame` over source
frames 1..total. -/
theorem C2_sequenceLength (total stride : ℤ) (h0 : 0 ≤ total) (hs : 1 ≤ stride) :
    sequenceLength total stride = (if total = 0 then 0 else (total - 1).fdiv stride + 1) ∧
    (0 < total →
      IsGreatest ((fun f => destinationFrame f stride) '' Set.Icc 1 total)
        (sequenceLength total stride)) := by
  constructor
  · by_cases h : total = 0
    · simp [sequenceLength, h]
    · have hpos : 0 < total := by omega
      simp [sequenceLength, hpos, h]
  · intro ht
    constructor
    · exact ⟨total, Set.mem_Icc.mpr ⟨by omega, le_refl _⟩, (seqLen_pos_eq ht).symm⟩
    · rintro y ⟨g, hg, rfl⟩
      rw [Set.mem_Icc] at hg
      rw [seqLen_pos_eq ht]
      exact destFrame_mono hs hg.2

/-- C2 witness: the theorem applied at total = 37, stride = 12. -/
theorem C2_sequenceLength_witness :
    sequenceLength 37 12 = (if (37:ℤ) = 0 then 0 else (37 - 1 : ℤ).fdiv 12 + 1) ∧
    IsGreatest ((fun f => destinationFrame f 12) '' Set.Icc 1 37) (sequenceLength 37 12) :=
  ⟨(C2_sequenceLength 37 12 (by decide) (by decide)).1,
   (C2_sequenceLength 37 12 (by decide) (by decide)).2 (by decide)⟩

/-- C9: the pixel box is `(x/100·W, y/100·H, w/100·W, h/100·H)` with no
clamping, and in exact arithmetic with positive frame dimensions dividing
the pixel components back by the dimensions and multiplying by 100
reproduces the input percentages. -/
theorem C9_pixelBox (x y w h W H : ℚ) :
    pixelBox x y w h W H = (x / 100 * W, y / 100 * H, w / 100 * W, h / 100 * H) ∧
    (0 < W → 0 < H →
      (pixelBox x y w h W H).1 / W * 100 = x ∧
      (pixelBox x y w h W H).2.1 / H * 100 = y ∧
      (pixelBox x y w h W H).2.2.1 / W * 100 = w ∧
      (pixelBox x y w h W H).2.2.2 / H * 100 = h) := by
  refine ⟨rfl, fun hW hH => ?_⟩
  have hW' : W ≠ 0 := ne_of_gt hW
  have hH' : H ≠ 0 := ne_of_gt hH
  unfold pixelBox
  refine ⟨?_, ?_, ?_, ?_⟩ <;> field_simp <;> ring

/-- C9 witness: the theorem applied at (50, 25, 10, 5) on a 200 by 100 frame. -/
theorem C9_pixelBox_witness :
    pixelBox 50 25 10 5 200 100 =
      ((50:ℚ) / 100 * 200, (25:ℚ) / 100 * 100, (10:ℚ) / 100 * 200, (5:ℚ) / 100 * 100) ∧
    ((pixelBox 50 25 10 5 200 100).1 / 200 * 100 = 50 ∧
     (pixelBox 50 25 10 5 200 100).2.1 / 100 * 100 = 25 ∧
     (pixelBox 50 25 10 5 200 100).2.2.1 / 200 * 100 = 10 ∧
     (pixelBox 50 25 10 5 200 100).2.2.2 / 100 * 100 = 5) :=
  ⟨(C9_pixelBox 50 25 10 5 200 100).1,
   (C9_pixelBox 50 25 10 5 200 100).2 (by norm_num) (by norm_num)⟩

/-- `charsLT` is the lexicographic strict order on character lists. -/
theorem charsLT_lex : ∀ (xs ys : List Char), charsLT xs ys = true ↔ List.Lex (· < ·) xs ys := by
  intro xs
  induction xs with
  | nil =>
    intro ys
    cases ys with
    | nil =>
      constructor
      · intro h; exact Bool.noConfusion h
      · intro h; exact absurd h (List.Lex.not_nil_right _ _)
    | cons b bs =>
      exact ⟨fun _ => List.Lex.nil, fun _ => rfl⟩
  | cons a as ih =>
    intro ys
    cases ys with
    | nil =>
      constructor
      · intro h; exact Bool.noConfusion h
      · intro h; exact absurd h (List.Lex.not_nil_right _ _)
    | cons b bs =>
      show (if a = b then charsLT as bs else decide (a < b)) = true ↔ _
      by_cases hab : a = b
      · subst hab
        rw [if_pos rfl, ih bs]
        constructor
        · exact fun h => List.Lex.cons h
        · intro h
          cases h with
          | cons h => exact h
          | rel h => exact absurd h (lt_irrefl a)
      · rw [if_neg hab, decide_eq_true_iff]
        constructor
        · exact fun h => List.Lex.rel h
        · intro h
          cases h with
          | cons => exact absurd rfl hab
          | rel h => exact h

/-- `keyLE` agrees with the canonical string order used by Python
`sorted` (lexicographic comparison by code point). -/
theorem keyLE_iff (a b : String) : keyLE a b ↔ a ≤ b := by
  unfold keyLE
  have h2 : charsLT b.data a.data = true ↔ b < a := by
    rw [String.lt_iff_toList_lt]
    exact charsLT_lex b.data a.data
  rw [Bool.eq_false_iff, Ne, h2]
  exact not_lt

/-- `keyLE` is total. -/
theorem keyLE_total (a b : String) : keyLE a b ∨ keyLE b a := by
  rw [keyLE_iff, keyLE_iff]
  exact le_total a b

/-- `keyLE` is transitive. -/
theorem keyLE_trans {a b c : String} (h1 : keyLE a b) (h2 : keyLE b c) : keyLE a c := by
  rw [keyLE_iff] at h1 h2 ⊢
  exact le_trans h1 h2

/-- `keyLE` is antisymmetric. -/
theorem keyLE_antisymm {a b : String} (h1 : keyLE a b) (h2 : keyLE b a) : a = b := by
  rw [keyLE_iff] at h1 h2
  exact le_antisymm h1 h2

/-- The successor of the index component of an enumeration is the integer
range starting at the successor of the base. -/
theorem enumFrom_map_add_one {α : Type} : ∀ (s : ℕ) (l : List α),
    (l.enumFrom s).map (fun ik => ik.1 + 1) = List.range' (s + 1) l.length := by
  intro s l
  induction l generalizing s with
  | nil => rfl
  | cons a l ih =>
    show (s + 1) :: (l.enumFrom (s + 1)).map (fun ik => ik.1 + 1) = List.range' (s + 1) (l.length + 1)
    rw [ih (s + 1), List.range'_succ]

/-- The value component of an enumeration is the original list. -/
theorem enumFrom_map_key {α : Type} (s : ℕ) (l : List α) :
    (l.enumFrom s).map (fun ik => ik.2) = l :=
  List.enumFrom_map_snd s l

/-- C6: `track_id_map` sends the track keys of one video bijectively onto
1..N with no gaps or repeats, by rank in the ascending canonical string
order; it is invariant under reordering of the key set, hence
deterministic. -/
theorem C6_track_id_map (keys : List String) (hnd : keys.Nodup) :
    ((track_id_map keys).map Prod.fst).Perm keys ∧
    ((track_id_map keys).map Prod.fst).Nodup ∧
    (track_id_map keys).map Prod.snd = List.range' 1 keys.length ∧
    ∀ keys2 : List String, keys.Perm keys2 → track_id_map keys = track_id_map keys2 := by
  haveI hTot : IsTotal String keyLE := ⟨keyLE_total⟩
  haveI hTrans : IsTrans String keyLE := ⟨fun a b c => keyLE_trans⟩
  haveI hAnti : IsAntisymm String keyLE := ⟨fun a b => keyLE_antisymm⟩
  have hfst : (track_id_map keys).map Prod.fst = List.insertionSort keyLE keys := by
    unfold track_id_map
    rw [List.map_map]
    exact enumFrom_map_key 0 _
  have hperm : ((track_id_map keys).map Prod.fst).Perm keys := by
    rw [hfst]
    exact List.perm_insertionSort keyLE keys
  refine ⟨hperm, hperm.symm.nodup hnd, ?_, ?_⟩
  · have hlen : (List.insertionSort keyLE keys).length = keys.length :=
      (List.perm_insertionSort keyLE keys).length_eq
    unfold track_id_map
    rw [List.map_map]
    have h := enumFrom_map_add_one 0 (List.insertionSort keyLE keys)
    rw [hlen] at h
    exact h
  · intro keys2 h2
    have hs : List.insertionSort keyLE keys = List.insertionSort keyLE keys2 :=
      List.eq_of_perm_of_sorted
        (((List.perm_insertionSort keyLE keys).trans h2).trans
          (List.perm_insertionSort keyLE keys2).symm)
        (List.sorted_insertionSort keyLE keys)
        (List.sorted_insertionSort keyLE keys2)
    unfold track_id_map
    rw [hs]

/-- C6 witness: the theorem applied to the key list ["b", "a"]. -/
theorem C6_track_id_map_witness :
    ((track_id_map ["b", "a"]).map Prod.fst).Perm ["b", "a"] ∧
    ((track_id_map ["b", "a"]).map Prod.fst).Nodup ∧
    (track_id_map ["b", "a"]).map Prod.snd = List.range' 1 (["b", "a"] : List String).length ∧
    ∀ keys2 : List String, (["b", "a"] : List String).Perm keys2 →
      track_id_map ["b", "a"] = track_id_map keys2 :=
  C6_track_id_map ["b", "a"] (by decide)

/-- The detection row of a keyframe is its ground-truth row with the id
column replaced by -1. -/
theorem detLine_eq_toDet (stride : ℤ) (w h : ℚ) (i : ℤ) (e : Entry) :
    detLine stride w h e = toDetRow (gtLine stride w h i e) := rfl

/-- The raw detection list mirrors the raw ground-truth list, row by row. -/
theorem detRaw_mirrors (stride : ℤ) (w h : ℚ) :
    ∀ withIds : List (ℤ × List Entry),
      withIds.flatMap (fun it => it.2.map (detLine stride w h)) =
        (withIds.flatMap (fun it => it.2.map (gtLine stride w h it.1))).map toDetRow := by
  intro withIds
  induction withIds with
  | nil => rfl
  | cons a l ih =>
    rw [List.flatMap_cons, List.flatMap_cons, List.map_append, ih, List.map_map]
    exact rfl

/-- The raw detection list mirrors the raw ground-truth list. -/
theorem detRawOf_eq_map (stride : ℤ) (w h : ℚ) (tracks : TrackMap) :
    detRawOf stride w h tracks = (gtRawOf stride w h tracks).map toDetRow :=
  detRaw_mirrors stride w h (withTrackIds tracks)

/-- One generated row per inner element of a two-level list. -/
theorem length_flatMap_inner {α β γ : Type} (g : α × List β → β → γ) :
    ∀ l : List (α × List β),
      (l.flatMap (fun it => it.2.map (g it))).length = (l.map (fun it => it.2.length)).sum := by
  intro l
  induction l with
  | nil => rfl
  | cons a l ih =>
    rw [List.flatMap_cons, List.length_append, List.length_map, List.map_cons, List.sum_cons, ih]

/-- The raw ground-truth list has one row per stored keyframe. -/
theorem gtRawOf_length (stride : ℤ) (w h : ℚ) (tracks : TrackMap) :
    (gtRawOf stride w h tracks).length = (tracks.map (fun kt => kt.2.length)).sum := by
  unfold gtRawOf
  rw [length_flatMap_inner (fun it => gtLine stride w h it.1) (withTrackIds tracks)]
  unfold withTrackIds
  rw [List.map_map]
  exact rfl

/-- C7: the emitted ground-truth records of every video are sorted
primarily by destination frame ascending and secondarily by track id
ascending; on tracks A (source frames 1 and 5) and B (source frame 3)
with stride 1 the row order is (frame 1, id of A), (frame 3, id of B),
(frame 5, id of A). -/
theorem C7_gt_sorted :
    (∀ (stride width height totalFrames : ℤ) (tracks : TrackMap),
      List.Sorted rowLE (write_mot_sequence stride width height totalFrames tracks).gt) ∧
    (write_mot_sequence 1 100 100 10 c7tracks).gt.map (fun r => (r.frame, r.id)) =
      [(1, 1), (3, 2), (5, 1)] := by
  constructor
  · intro stride width height totalFrames tracks
    exact List.sorted_insertionSort rowLE _
  · decide

/-- C10: the detection list of every video mirrors the ground-truth list:
equal length, the detection rows are exactly the ground-truth rows with
the id column replaced by the sentinel -1 (same destination frame and
same four pixel coordinates), every detection row has id -1 and
confidence 1.0, and the ground-truth list has exactly one row per stored
keyframe of each track. -/
theorem C10_det_mirrors_gt (stride width height totalFrames : ℤ) (tracks : TrackMap) :
    (write_mot_sequence stride width height totalFrames tracks).det.length =
      (write_mot_sequence stride width height totalFrames tracks).gt.length ∧
    (write_mot_sequence stride width height totalFrames tracks).det.Perm
      ((write_mot_sequence stride width height totalFrames tracks).gt.map toDetRow) ∧
    (write_mot_sequence stride width height totalFrames tracks).gt.length =
      (tracks.map (fun kt => kt.2.length)).sum ∧
    ∀ r ∈ (write_mot_sequence stride width height totalFrames tracks).det,
      r.id = -1 ∧ r.conf = 1 := by
  have hgt : (write_mot_sequence stride width height totalFrames tracks).gt =
      List.insertionSort rowLE (gtRawOf stride (width : ℚ) (height : ℚ) tracks) := rfl
  have hdet : (write_mot_sequence stride width height totalFrames tracks).det =
      List.insertionSort detLE (detRawOf stride (width : ℚ) (height : ℚ) tracks) := rfl
  have hperm : (write_mot_sequence stride width height totalFrames tracks).det.Perm
      ((write_mot_sequence stride width height totalFrames tracks).gt.map toDetRow) := by
    rw [hgt, hdet]
    refine (List.perm_insertionSort detLE _).trans ?_
    rw [detRawOf_eq_map stride (width : ℚ) (height : ℚ) tracks]
    exact ((List.perm_insertionSort rowLE _).symm).map toDetRow
  refine ⟨?_, hperm, ?_, ?_⟩
  · have := hperm.length_eq
    rw [List.length_map] at this
    exact this
  · rw [hgt, (List.perm_insertionSort rowLE _).length_eq]
    exact gtRawOf_length stride (width : ℚ) (height : ℚ) tracks
  · intro r hr
    rw [hdet, List.mem_insertionSort] at hr
    unfold detRawOf at hr
    rw [List.mem_flatMap] at hr
    obtain ⟨it, _, hr⟩ := hr
    rw [List.mem_map] at hr
    obtain ⟨e, _, he⟩ := hr
    rw [← he]
    exact ⟨rfl, rfl⟩

/-- If some element of a list makes the fold step fail regardless of the
accumulator, the whole monadic fold fails. -/
theorem foldlM_err_of_mem {α β : Type} (step : β → α → Except ParseError β) (l : List α) (x : α)
    (hx : x ∈ l) (hstep : ∀ b, step b x = .error .malformed) (b : β) :
    l.foldlM step b = .error .malformed := by
  induction l generalizing b with
  | nil => cases hx
  | cons a l ih =>
    rw [List.foldlM_cons]
    rcases List.mem_cons.mp hx with h | h
    · subst h
      rw [hstep b]
      rfl
    · cases hstep2 : step b a with
      | error e => cases e; rfl
      | ok b2 => exact ih h b2

/-- An enabled keyframe missing any of the five required fields fails the
parse with the malformed-annotation error. -/
theorem parseKeyframe_err (kf : Keyframe) (hen : kf.enabled.getD true = true)
    (hmiss : kf.frame = none ∨ kf.x = none ∨ kf.y = none ∨ kf.width = none ∨ kf.height = none) :
    parseKeyframe kf = .error .malformed := by
  unfold parseKeyframe
  rw [if_neg (by simp [hen])]
  cases hf : kf.frame <;> cases hx : kf.x <;> cases hy : kf.y <;> cases hw : kf.width <;>
    cases hh : kf.height <;> first | rfl | simp_all

/-- A failing keyframe fails the per-keyframe accumulator step. -/
theorem parseSeqStep_err (vname key : String) (kf : Keyframe)
    (hkf : parseKeyframe kf = .error .malformed) (acc : VideoMap) :
    parseSeqStep vname key acc kf = .error .malformed := by
  unfold parseSeqStep
  rw [hkf]
  rfl

/-- A tracked-rectangle result containing a failing keyframe fails. -/
theorem parseResult_err (t : LSTask) (vname : String) (r : LSResult)
    (hr : r.type = "videorectangle") (kf : Keyframe) (hkf : kf ∈ r.sequence)
    (herr : parseKeyframe kf = .error .malformed) (acc : VideoMap) :
    parseResult t vname acc r = .error .malformed := by
  unfold parseResult
  rw [if_pos hr]
  exact foldlM_err_of_mem _ _ kf hkf
    (fun b => parseSeqStep_err vname (trackKeyOf t r) kf herr b) acc

/-- An annotation pass containing a failing result fails. -/
theorem parseAnn_err (t : LSTask) (vname : String) (a : LSAnn) (r : LSResult)
    (hra : r ∈ a.result) (herr : ∀ acc, parseResult t vname acc r = .error .malformed)
    (acc : VideoMap) :
    parseAnn t vname acc a = .error .malformed := by
  unfold parseAnn
  exact foldlM_err_of_mem _ _ r hra herr acc

/-- A task with a non-empty video reference containing a failing
annotation pass fails. -/
theorem parseTask_err (t : LSTask) (url : String) (hv : t.video = some url) (hurl : url ≠ "")
    (a : LSAnn) (ha : a ∈ t.annotations)
    (herr : ∀ acc, parseAnn t (videoNameOf url) acc a = .error .malformed) (acc : VideoMap) :
    parseTask acc t = .error .malformed := by
  unfold parseTask
  rw [hv]
  show (if url = "" then (pure acc : Except ParseError VideoMap)
        else t.annotations.foldlM (parseAnn t (videoNameOf url)) acc) = .error .malformed
  rw [if_neg hurl]
  exact foldlM_err_of_mem _ _ a ha herr acc

/-- A failing task fails the whole parse. -/
theorem parse_ls_tracks_err (data : List LSTask) (t : LSTask) (ht : t ∈ data)
    (herr : ∀ acc, parseTask acc t = .error .malformed) :
    parse_ls_tracks data = .error .malformed := by
  unfold parse_ls_tracks
  rw [foldlM_err_of_mem parseTask data t ht herr []]
  rfl

/-- A parse failure aborts the run before any sequence output is produced. -/
theorem runExport_err (stride : ℤ) (data : List LSTask) (videos : List (String × ℤ × ℤ × ℤ))
    (h : parse_ls_tracks data = .error .malformed) :
    runExport stride data videos = .error .malformed := by
  unfold runExport
  rw [h]
  rfl

/-- C4 counterexample: an export whose only keyframe is missing `width`
but is disabled is parsed without error (the enabled check at
run_export.py:138 runs before any required-field access), refuting the
claim for arbitrary malformed keyframes. -/
theorem C4_counterexample :
    cx4kf.width = none ∧
    (∃ a ∈ cx4task.annotations, ∃ r ∈ a.result,
      r.type = "videorectangle" ∧ cx4kf ∈ r.sequence) ∧
    parse_ls_tracks [cx4task] = .ok [] := by
  refine ⟨rfl, by decide, by decide⟩

/-- C4 (amended): for every export containing a task with a non-empty
video reference, holding a tracked-rectangle result with an *enabled*
keyframe missing one of `frame`/`x`/`y`/`width`/`height`, parsing fails
with the malformed-annotation error and the pipeline produces no output
for that export. -/
theorem C4_parse_error (data : List LSTask) (t : LSTask) (url : String) (a : LSAnn)
    (r : LSResult) (kf : Keyframe) (ht : t ∈ data) (hv : t.video = some url) (hurl : url ≠ "")
    (ha : a ∈ t.annotations) (hr : r ∈ a.result) (hty : r.type = "videorectangle")
    (hkf : kf ∈ r.sequence) (hen : kf.enabled.getD true = true)
    (hmiss : kf.frame = none ∨ kf.x = none ∨ kf.y = none ∨ kf.width = none ∨ kf.height = none) :
    parse_ls_tracks data = .error .malformed ∧
    ∀ (stride : ℤ) (videos : List (String × ℤ × ℤ × ℤ)),
      runExport stride data videos = .error .malformed := by
  have hp : parse_ls_tracks data = .error .malformed :=
    parse_ls_tracks_err data t ht (fun acc =>
      parseTask_err t url hv hurl a ha (fun acc2 =>
        parseAnn_err t (videoNameOf url) a r hr (fun acc3 =>
          parseResult_err t (videoNameOf url) r hty kf hkf
            (parseKeyframe_err kf hen hmiss) acc3) acc2) acc)
  exact ⟨hp, fun stride videos => runExport_err stride data videos hp⟩

/-- C4 witness: the amended theorem applied to a one-task export whose
enabled keyframe is missing `width`, with a concrete video list. -/
theorem C4_parse_error_witness :
    parse_ls_tracks [c4taskBad] = .error .malformed ∧
    runExport 24 [c4taskBad] [("video", 100, 100, 240)] = .error .malformed :=
  ⟨(C4_parse_error [c4taskBad] c4taskBad "video.mp4" ⟨[c4resBad]⟩ c4resBad c4kfBad
      (by decide) (by decide) (by decide) (by decide) (by decide) (by decide) (by decide)
      (by decide) (by decide)).1,
   (C4_parse_error [c4taskBad] c4taskBad "video.mp4" ⟨[c4resBad]⟩ c4resBad c4kfBad
      (by decide) (by decide) (by decide) (by decide) (by decide) (by decide) (by decide)
      (by decide) (by decide)).2 24 [("video", 100, 100, 240)]⟩

/-- C8: a keyframe with `enabled == false` is dropped before any field
access and contributes no entry; a keyframe without an `enabled` field is
treated as enabled; a track of three keyframes whose middle one is
disabled parses to exactly two entries and produces exactly two
ground-truth rows. -/
theorem C8_disabled_dropped :
    (∀ kf : Keyframe, kf.enabled = some false → parseKeyframe kf = .ok none) ∧
    (∀ (f : ℤ) (x y w h : ℚ),
      parseKeyframe ⟨some f, some x, some y, some w, some h, none⟩ = .ok (some ⟨f, x, y, w, h⟩)) ∧
    parse_ls_tracks [c8task] =
      .ok [("video", [("t1", [⟨1, 10, 10, 10, 10⟩, ⟨3, 30, 30, 30, 30⟩])])] ∧
    (write_mot_sequence 24 100 100 240
        [("t1", [⟨1, 10, 10, 10, 10⟩, ⟨3, 30, 30, 30, 30⟩])]).gt.length = 2 := by
  refine ⟨?_, ?_, by decide, by decide⟩
  · intro kf h
    simp [parseKeyframe, h]
  · intro f x y w h
    rfl

/-- C8 witness: a disabled keyframe is dropped; one with no `enabled`
field parses to its entry. -/
theorem C8_disabled_dropped_witness :
    parseKeyframe ⟨some 2, some 20, some 20, some 20, some 20, some false⟩ = .ok none ∧
    parseKeyframe ⟨some 4, some 1, some 2, some 3, some 4, none⟩ = .ok (some ⟨4, 1, 2, 3, 4⟩) :=
  ⟨C8_disabled_dropped.1 ⟨some 2, some 20, some 20, some 20, some 20, some false⟩ rfl,
   C8_disabled_dropped.2.1 4 1 2 3 4⟩

/-- C3 counterexample: two distinct id-less tracked-rectangle results of
the same task derive the same fallback track key, so their keyframes are
silently merged into one track, refuting the claimed distinctness. -/
theorem C3_counterexample :
    cx3r1 ≠ cx3r2 ∧
    trackKeyOf cx3task cx3r1 = trackKeyOf cx3task cx3r2 ∧
    trackKeyOf cx3task cx3r1 = "7-box-video" ∧
    parse_ls_tracks [cx3task] =
      .ok [("video", [("7-box-video", [⟨1, 10, 10, 10, 10⟩, ⟨3, 30, 30, 30, 30⟩])])] :=
  ⟨by decide, by decide, by decide, by decide⟩

/-- C3 (amended): the track key is the result's own id when present and
non-empty, and otherwise the fallback built from the task id and the two
endpoint-field names; keys of two results are distinct whenever both
results carry non-empty distinct ids (fallback keys of id-less results
may collide). -/
theorem C3_trackKey (t t2 : LSTask) (r r2 : LSResult) :
    (∀ s : String, r.id = some s → s ≠ "" → trackKeyOf t r = s) ∧
    (r.id = none →
      trackKeyOf t r =
        optIntStr t.id ++ "-" ++ optStr r.from_name ++ "-" ++ optStr r.to_name) ∧
    (∀ s s2 : String, r.id = some s → r2.id = some s2 → s ≠ "" → s2 ≠ "" → s ≠ s2 →
      trackKeyOf t r ≠ trackKeyOf t2 r2) := by
  have hkey : ∀ (t3 : LSTask) (r3 : LSResult) (s : String),
      r3.id = some s → s ≠ "" → trackKeyOf t3 r3 = s := by
    intro t3 r3 s hs hne
    simp only [trackKeyOf, hs]
    rw [if_neg hne]
  refine ⟨hkey t r, ?_, ?_⟩
  · intro hid
    simp only [trackKeyOf, hid]
  · intro s s2 hs hs2 hne hne2 hss
    rw [hkey t r s hs hne, hkey t2 r2 s2 hs2 hne2]
    exact hss

/-- C3 witness: the amended theorem applied to results with ids "tA" and
"tB" and to the id-less result of the counterexample task. -/
theorem C3_trackKey_witness :
    trackKeyOf cx3task ⟨"videorectangle", some "tA", none, none, []⟩ = "tA" ∧
    trackKeyOf cx3task cx3r1 =
      optIntStr cx3task.id ++ "-" ++ optStr cx3r1.from_name ++ "-" ++ optStr cx3r1.to_name ∧
    trackKeyOf cx3task ⟨"videorectangle", some "tA", none, none, []⟩ ≠
      trackKeyOf cx3task ⟨"videorectangle", some "tB", none, none, []⟩ :=
  ⟨(C3_trackKey cx3task cx3task ⟨"videorectangle", some "tA", none, none, []⟩
      ⟨"videorectangle", some "tB", none, none, []⟩).1 "tA" rfl (by decide),
   (C3_trackKey cx3task cx3task cx3r1 cx3r2).2.1 rfl,
   (C3_trackKey cx3task cx3task ⟨"videorectangle", some "tA", none, none, []⟩
      ⟨"videorectangle", some "tB", none, none, []⟩).2.2 "tA" "tB" rfl rfl (by decide)
      (by decide) (by decide)⟩

/-- C5: the per-sequence file writing is not all-or-nothing.  `gt.txt` is
written by `write_text` directly at its final output path with no
temporary file and no rename, so a write interrupted after 4 characters
leaves a strict prefix of the content at the very path at which the
successful writer places the complete file. -/
theorem C5_partial_write_remains :
    writeTextUpTo fsEmpty (gtPath "seq01") "1,1,50.0,50.0,10.0,10.0,1,-1,-1,-1" 4
        (gtPath "seq01") = some "1,1," ∧
    "1,1," ≠ "1,1,50.0,50.0,10.0,10.0,1,-1,-1,-1" ∧
    writeSequenceFiles fsEmpty "seq01" "1,1,50.0,50.0,10.0,10.0,1,-1,-1,-1"
        "1,-1,50.0,50.0,10.0,10.0,1.0,-1,-1,-1" (gtPath "seq01") =
      some "1,1,50.0,50.0,10.0,10.0,1,-1,-1,-1" :=
  ⟨by decide, by decide, by decide⟩
